import Mathlib

/-! Overview.
Verification of the retico multilingual TTS module
(`retico_multilingual_tts/multilingual_tts.py`).

Shallow embedding conventions:
* Python strings are `List Char`; byte buffers are `List Nat`.
* `None` and absent attributes are `Option`; Python truthiness of an
  optional string is `truthyOpt`.
* The neural synthesizer (`TTS.api.TTS`) and the WAV encoding step are
  external collaborators, passed in as oracle functions.
* Threads are modelled by an explicit interleaving step relation
  (`SysState`, `doStep`) at the granularity of the atomic operations the
  code performs on the shared deque.
-/

namespace RMTTS

/-- The module-level constant MULTILINGUAL_MODEL. -/
def MULTILINGUAL_MODEL : List Char := "tts_models/multilingual/multi-dataset/xtts_v2".toList

/-- The "Brenda Stern" speaker of the multilingual entry. -/
def brendaStern : List Char := "Brenda Stern".toList

/-- The fallback entry LANGUAGE_MAPPING["all"]. -/
def allEntry : List Char × Option (List Char) := (MULTILINGUAL_MODEL, some brendaStern)

/-- The class attribute LANGUAGE_MAPPING: language code to (model, speaker). -/
def LANGUAGE_MAPPING : List (List Char × (List Char × Option (List Char))) :=
  [ ("all".toList, allEntry),
    ("de".toList, ("tts_models/de/thorsten/vits".toList, none)),
    ("en".toList, ("tts_models/en/ljspeech/vits".toList, none)),
    ("es".toList, ("tts_models/es/css10/vits".toList, none)),
    ("fr".toList, ("tts_models/fr/css10/vits".toList, none)),
    ("fi".toList, ("tts_models/fi/css10/vits".toList, none)),
    ("hu".toList, ("tts_models/hu/css10/vits".toList, none)),
    ("it".toList, ("tts_models/it/mai_female/vits".toList, none)),
    ("ja".toList, ("tts_models/ja/kokoro/tacotron2-DDC".toList, none)),
    ("lv".toList, ("tts_models/lv/cv/vits".toList, none)),
    ("nl".toList, ("tts_models/nl/css10/vits".toList, none)),
    ("pl".toList, ("tts_models/pl/mai_female/vits".toList, none)),
    ("pt".toList, ("tts_models/pt/cv/vits".toList, none)) ]

/-- Dictionary lookup LANGUAGE_MAPPING.get(l). -/
def lookupLang (l : List Char) : Option (List Char × Option (List Char)) :=
  (LANGUAGE_MAPPING.find? (fun p => p.1 == l)).map (fun p => p.2)

/-- Python `l in LANGUAGE_MAPPING` (membership test on the keys). -/
def isLangKey (l : List Char) : Bool := (lookupLang l).isSome

/-- Python `self.LANGUAGE_MAPPING.get(self.language, self.LANGUAGE_MAPPING["all"])`:
lookup with the "all" entry as the default. -/
def selectModel (l : List Char) : List Char × Option (List Char) :=
  (lookupLang l).getD allEntry

/-- The key "all". -/
def allKey : List Char := "all".toList

/-- Python truthiness of an optional string: false for None / absent
attribute and for the empty string. -/
def truthyOpt : Option (List Char) → Bool
  | none => false
  | some s => !s.isEmpty

/-- Constructor line `self.wished_language = language if language in self.LANGUAGE_MAPPING else None`
(constructor line). -/
def wishedOf (language : Option (List Char)) : Option (List Char) :=
  match language with
  | some l => if isLangKey l then some l else none
  | none => none

/-- The language resolution at the top of the process_update loop:
`if not self.wished_language and hasattr(iu, "language") and iu.language:
self.language = iu.language else: self.language = self.wished_language or "all"`.
An absent language attribute and a None language are both `none`. -/
def resolveLanguage (wished : Option (List Char)) (iuLang : Option (List Char)) : List Char :=
  if !truthyOpt wished && truthyOpt iuLang then
    iuLang.getD []
  else
    match wished with
    | some w => if w.isEmpty then allKey else w
    | none => allKey

/-- A TextIU as the module consumes it: its text, an optional language
tag, and the committed flag. `uid` models object identity, used only by
REVOKE. -/
structure TextIU where
  uid : Nat
  text : List Char
  language : Option (List Char)
  committed : Bool
deriving DecidableEq

/-- retico update types. -/
inductive UpdType
  | ADD
  | REVOKE
  | COMMIT
deriving DecidableEq

/-- One terminal punctuation character of the finalization heuristic. -/
def isTerminalChar (c : Char) : Bool := c == '.' || c == '!' || c == '?'

/-- Python `any(p in current_text for p in ".!?")`. -/
def containsTerminal (cs : List Char) : Bool := cs.any isTerminalChar

/-- Python `" ".join`. -/
def joinSpace : List (List Char) → List Char
  | [] => []
  | [t] => t
  | t :: ts => t ++ ' ' :: joinSpace ts

/-- The mutable state of a MultilingualTTSModule instance (the fields
process_update, _synthesize, _tts_thread and shutdown touch).
`dispatches` is ghost state recording the text of each synthesis
dispatch, in order; the code starts one `_synthesize` thread per entry.
`frameNum / frameDen` is the `frame_duration` float as a rational
(default 0.2 = 1 / 5). -/
structure ModState where
  wishedLanguage : Option (List Char)
  dispatchOnFinish : Bool
  frameNum : Nat
  frameDen : Nat
  samplewidth : Nat
  sampleRate : Nat
  ttsThreadActive : Bool
  language : List Char
  model : List Char
  speaker : Option (List Char)
  currentInput : List TextIU
  latestText : List Char
  latestInputIU : Option TextIU
  audioBuffer : List (List Nat)
  dispatches : List (List Char)
deriving DecidableEq

/-- Constructor `__init__(self, language=None, dispatch_on_finish=True, frame_duration=0.2)`.
The `language / model / speaker` instance attributes are first assigned in
process_update; their initial values here are inert placeholders. -/
def initModState (language : Option (List Char)) : ModState :=
  { wishedLanguage := wishedOf language
    dispatchOnFinish := true
    frameNum := 1
    frameDen := 5
    samplewidth := 2
    sampleRate := 22050
    ttsThreadActive := false
    language := []
    model := []
    speaker := none
    currentInput := []
    latestText := []
    latestInputIU := none
    audioBuffer := []
    dispatches := [] }

/-- Method `current_text(self)`: space-join of the texts of current_input. -/
def currentText (s : ModState) : List Char :=
  joinSpace (s.currentInput.map (fun iu => iu.text))

/-- One iteration of the `for iu, ut in update_message` loop, threading the
`final` flag (which persists across iterations). `srOf` is the sample
rate the constructed CoquiTTS instance reports for a model (external:
`self.tts.sample_rate`). -/
def processOne (srOf : List Char → Nat) (st : ModState × Bool) (iu : TextIU) (ut : UpdType) :
    ModState × Bool :=
  let s0 := st.1
  let lang := resolveLanguage s0.wishedLanguage iu.language
  let ms := selectModel lang
  let s1 : ModState :=
    { s0 with language := lang, model := ms.1, speaker := ms.2, sampleRate := srOf ms.1 }
  let su : ModState × Bool :=
    match ut with
    | .ADD =>
        ({ s1 with currentInput := s1.currentInput ++ [iu], latestInputIU := some iu },
         st.2 || iu.committed)
    | .REVOKE =>
        ({ s1 with currentInput := s1.currentInput.filter (fun x => x.uid != iu.uid) }, st.2)
    | .COMMIT => (s1, true)
  let ct := currentText su.1
  if su.2 || containsTerminal ct then
    ({ su.1 with latestText := ct, audioBuffer := [], currentInput := [],
                 dispatches := su.1.dispatches ++ [ct] }, su.2)
  else su

/-- Method `process_update(self, update_message)`: early return on an empty
message, then the loop with `final = False` initially. -/
def processUpdate (srOf : List Char → Nat) (s : ModState) (msg : List (TextIU × UpdType)) :
    ModState :=
  if msg.isEmpty then s
  else (msg.foldl (fun st u => processOne srOf st u.1 u.2) (s, false)).1

/-- Left-pad helper: Python `chunk.ljust(frame_bytes, b"\x00")` pads on the
right with zero bytes up to the requested length. -/
def ljustZero (n : Nat) (bs : List Nat) : List Nat := bs ++ List.replicate (n - bs.length) 0

/-- The chunking loop of `_synthesize`: slices of `fb` bytes, the last one
right-padded with zeros. Python `range` with step 0 raises ValueError, so
`fb = 0` is outside the modelled domain (every theorem assumes `0 < fb`);
it is mapped to the empty list here. -/
def chunkify : Nat → List Nat → List (List Nat)
  | _, [] => []
  | 0, _ :: _ => []
  | fb+1, a :: rest =>
      ljustZero (fb+1) ((a :: rest).take (fb+1)) ::
        chunkify (fb+1) ((a :: rest).drop (fb+1))
termination_by _ audio => audio.length
decreasing_by simp [List.length_drop]; omega

/-- Python `frame_bytes = int(self.sample_rate * self.frame_duration) * self.samplewidth`
(Python `int()` on a nonnegative value is floor, i.e. Nat division). -/
def frameBytes (s : ModState) : Nat :=
  (s.sampleRate * s.frameNum / s.frameDen) * s.samplewidth

/-- The frames `_synthesize` appends to the audio buffer for a synthesized
byte buffer `newAudio`. -/
def synthesizeFrames (s : ModState) (newAudio : List Nat) : List (List Nat) :=
  chunkify (frameBytes s) newAudio

/-- The silence frame of the `_tts_thread` underrun branch:
`b"\x00" * (self.samplewidth * int(self.sample_rate * self.frame_duration))`. -/
def silenceFrame (s : ModState) : List Nat :=
  List.replicate (s.samplewidth * (s.sampleRate * s.frameNum / s.frameDen)) 0

/-- One tick of `_tts_thread`: pop the front frame if the buffer is
non-empty, else build a silence frame. Returns the emitted frame and the
successor state. -/
def tick (s : ModState) : List Nat × ModState :=
  match s.audioBuffer with
  | f :: rest => (f, { s with audioBuffer := rest })
  | [] => (silenceFrame s, s)

/-- Method `shutdown(self)`: clears the thread-active flag, nothing else. -/
def shutdown (s : ModState) : ModState := { s with ttsThreadActive := false }

/-- Running the `while self._tts_thread_active` loop for up to `n` ticks:
the flag is tested before each emission, and the loop exits (emitting
nothing further) as soon as it is false. -/
def runSched : Nat → ModState → List (List Nat)
  | 0, _ => []
  | n+1, s =>
      if s.ttsThreadActive then
        (tick s).1 :: runSched n (tick s).2
      else []

/-! Interleaving model of the dispatcher, synthesis threads and scheduler.

`process_update` clears the shared deque and starts one daemon
`_synthesize` thread per dispatch; each thread appends its chunks to the
deque one `append` at a time (each `deque.append` is atomic); the
`_tts_thread` pops one frame per tick or emits silence. There is no
generation field anywhere in the code, so frames carry a ghost generation
tag recording which dispatch produced them; the tag does not influence
any transition. -/

/-- Global state of one run: the shared audio buffer (frames tagged with
the ghost generation of the dispatch that produced them), the in-flight
`_synthesize` threads with the chunks they have not yet appended, the
number of dispatches issued so far, and the frames emitted downstream
(`none` is a silence frame). -/
structure SysState where
  buffer : List (Nat × List Nat)
  threads : List (Nat × List (List Nat))
  latestGen : Nat
  out : List (Option (Nat × List Nat))
deriving DecidableEq

/-- The run starts with nothing buffered, no thread, no output. -/
def initSys : SysState :=
  { buffer := [], threads := [], latestGen := 0, out := [] }

/-- One atomic step of the interleaved execution. -/
inductive SysStep
  /-- The dispatch tail of process_update: `self.audio_buffer.clear()`
  followed by `threading.Thread(target=self._synthesize, ...).start()`.
  `chunks` is what the new thread will append over time (the chunkified
  synthesizer output for the dispatched text). -/
  | dispatch (chunks : List (List Nat))
  /-- Thread `i` performs its next `self.audio_buffer.append(chunk)`.
  The code has no generation check here: the append happens regardless of
  later dispatches. A no-op if `i` is out of range or exhausted. -/
  | synthStep (i : Nat)
  /-- One `_tts_thread` tick: pop the front frame, or emit silence
  (tagged `none`) if the buffer is empty. -/
  | tick
deriving DecidableEq

/-- Transition function of one atomic step. -/
def doStep (s : SysState) : SysStep → SysState
  | .dispatch chunks =>
      { s with buffer := [],
               latestGen := s.latestGen + 1,
               threads := s.threads ++ [(s.latestGen + 1, chunks)] }
  | .synthStep i =>
      match s.threads[i]? with
      | some (g, c :: cs) =>
          { s with buffer := s.buffer ++ [(g, c)], threads := s.threads.set i (g, cs) }
      | _ => s
  | .tick =>
      match s.buffer with
      | f :: rest => { s with buffer := rest, out := s.out ++ [some f] }
      | [] => { s with out := s.out ++ [none] }

/-- Run a schedule (a list of atomic steps) from a state. -/
def runSys (s : SysState) (steps : List SysStep) : SysState :=
  steps.foldl doStep s

/-! Model of the CoquiTTS wrapper, its cache and the filesystem.

`hashlib.sha256(text + model).hexdigest()` is modelled by the injective
encoding `cacheKey text model = text ++ model` (the digest input itself);
the cache directory is a key-to-bytes map. The neural model plus the
int16 / WAV encoding pipeline is the `oracle` function: the bytes the
miss path of `synthesize` produces for a text (deterministic for a fixed
model configuration). `synthCalls` is ghost state counting invocations
of the underlying synthesizer `self.tts.tts`. -/

/-- Cache directory contents plus the ghost synthesizer-invocation
counter. -/
structure FsState where
  cache : List (List Char × List Nat)
  synthCalls : Nat
deriving DecidableEq

/-- The digest input `text.encode + self.model_name.encode` of
get_cache_path, standing in (injectively) for the sha256 hex digest. -/
def cacheKey (text modelName : List Char) : List Char := text ++ modelName

/-- The body of `CoquiTTS.synthesize` on an initialized instance: cache
hit returns the stored bytes; otherwise the synthesizer runs (counter
incremented) and the result is written to the cache when caching is on. -/
def synthRun (oracle : List Char → List Nat) (modelName : List Char) (caching : Bool)
    (fs : FsState) (text : List Char) : List Nat × FsState :=
  let key := cacheKey text modelName
  match caching, fs.cache.find? (fun p => p.1 == key) with
  | true, some entry => (entry.2, fs)
  | _, _ =>
      let data := oracle text
      (data,
       { cache := if caching then (key, data) :: fs.cache else fs.cache,
         synthCalls := fs.synthCalls + 1 })

/-- Attribute store of a CoquiTTS instance: `none` in an outer Option
means the attribute was never assigned (the constructor returned early).
`modelName` and `speaker` hold an inner Option because the Python
parameters may themselves be None. -/
structure CoquiState where
  modelName : Option (Option (List Char))
  speaker : Option (Option (List Char))
  language : Option (List Char)
  caching : Option Bool
  tmpDir : Option (List Char)
  hasTTS : Bool
  sampleRate : Option Nat
deriving DecidableEq

/-- Constructor `CoquiTTS.__init__`: `if language is None: return` leaves every
attribute unset; otherwise all attributes are assigned, with the sample
rate read off the loaded model (`srOfModel`, external). -/
def coquiInit (srOfModel : Option (List Char) → Nat) (modelName : Option (List Char))
    (speaker : Option (List Char)) (language : Option (List Char)) (caching : Bool)
    (tmpDir : List Char) : CoquiState :=
  match language with
  | none =>
      { modelName := none, speaker := none, language := none, caching := none,
        tmpDir := none, hasTTS := false, sampleRate := none }
  | some lang =>
      { modelName := some modelName, speaker := some speaker, language := some lang,
        caching := some caching, tmpDir := some tmpDir, hasTTS := true,
        sampleRate := some (srOfModel modelName) }

/-- The Python errors the modelled methods can raise. -/
inductive PyErr
  | attributeError
deriving DecidableEq

/-- Method `get_cache_path`: reads `self.model_name` and `self.tmp_dir`; an unset
attribute, or a model_name attribute holding None (`None.encode`), raises
AttributeError. -/
def getCachePath (st : CoquiState) (text : List Char) : Except PyErr (List Char) :=
  match st.modelName, st.tmpDir with
  | some (some m), some d => .ok (d ++ '/' :: (cacheKey text m ++ ".wav".toList))
  | _, _ => .error .attributeError

/-- Method `CoquiTTS.synthesize` with attribute access: it first calls
get_cache_path, then needs `self.caching`, `self.tts` and the rest, all
of which are set exactly when the instance was initialized. -/
def coquiSynthesize (oracle : List Char → List Nat) (st : CoquiState) (fs : FsState)
    (text : List Char) : Except PyErr (List Nat × FsState) :=
  match getCachePath st text, st.modelName, st.caching with
  | .ok _, some (some m), some caching => .ok (synthRun oracle m caching fs text)
  | _, _, _ => .error .attributeError

/-! Helper lemmas. -/

/-- A space is not a sentence-terminal character. -/
theorem isTerminalChar_space : isTerminalChar ' ' = false := by decide

/-- The terminal-marker test distributes over append. -/
theorem containsTerminal_append (a b : List Char) :
    containsTerminal (a ++ b) = (containsTerminal a || containsTerminal b) := by
  simp [containsTerminal, List.any_append]

/-- The space-join contains a terminal marker iff one of the joined texts
does (the separator contributes none). -/
theorem containsTerminal_joinSpace (L : List (List Char)) :
    containsTerminal (joinSpace L) = L.any containsTerminal := by
  induction L with
  | nil => rfl
  | cons t ts ih =>
    cases ts with
    | nil => simp [joinSpace, containsTerminal]
    | cons u us =>
      show containsTerminal (t ++ ' ' :: joinSpace (u :: us)) = _
      rw [containsTerminal_append]
      have : containsTerminal (' ' :: joinSpace (u :: us)) =
          containsTerminal (joinSpace (u :: us)) := by
        simp [containsTerminal, isTerminalChar_space]
      rw [this, ih]
      simp [List.any_cons]

/-- Every chunk produced by the chunking loop has exactly `fb` bytes. -/
theorem chunkify_length (fb : Nat) (audio : List Nat) (h : 0 < fb) :
    ∀ c ∈ chunkify fb audio, c.length = fb := by
  induction fb, audio using chunkify.induct with
  | case1 => simp [chunkify]
  | case2 => omega
  | case3 fb a rest ih =>
    intro c hc
    rw [chunkify] at hc
    rcases List.mem_cons.mp hc with rfl | hc
    · simp [ljustZero]
    · exact ih (by omega) c hc

/-- The chunks concatenate back to the input followed by the right-pad of
the final chunk: the source bytes are preserved in order and only zeros
are appended. -/
theorem chunkify_flatten (fb : Nat) (audio : List Nat) (h : 0 < fb) :
    (chunkify fb audio).flatten =
      audio ++ List.replicate ((fb - audio.length % fb) % fb) 0 := by
  induction fb, audio using chunkify.induct with
  | case1 => simp [chunkify]
  | case2 => omega
  | case3 fb a rest ih =>
    rw [chunkify]
    rcases Nat.lt_or_ge fb rest.length with hgt | hle
    · have ht : ((a :: rest).take (fb+1)).length = fb+1 := by
        simp [List.length_take]; omega
      simp only [List.flatten_cons, ljustZero]
      rw [ht, Nat.sub_self, List.replicate_zero, List.append_nil]
      rw [ih (by omega), ← List.append_assoc, List.take_append_drop]
      have h1 : (List.drop (fb+1) (a :: rest)).length = rest.length - fb := by
        simp [List.length_drop]
      have h2 : (rest.length - fb) % (fb+1) = (a :: rest).length % (fb+1) := by
        have hx : (a :: rest).length = (rest.length - fb) + (fb+1) := by simp; omega
        rw [hx, Nat.add_mod_right]
      rw [h1, h2]
    · have hd : List.drop (fb+1) (a :: rest) = [] := List.drop_eq_nil_of_le (by simp; omega)
      have ht : List.take (fb+1) (a :: rest) = a :: rest := List.take_of_length_le (by simp; omega)
      rw [hd, ht]
      simp only [chunkify, List.flatten_cons, List.flatten_nil, List.append_nil, ljustZero]
      have hn : (a :: rest).length = rest.length + 1 := by simp
      rw [hn]
      by_cases heq : rest.length = fb
      · subst heq
        simp [Nat.mod_self]
      · have hlt : rest.length + 1 < fb + 1 := by omega
        rw [Nat.mod_eq_of_lt hlt, Nat.mod_eq_of_lt (by omega : fb + 1 - (rest.length + 1) < fb + 1)]

/-! Claim theorems. -/

/-- C8: for every increment whose resolved language is not a key of
LANGUAGE_MAPPING, model selection falls back to the default multilingual
entry (the "all" entry: the xtts_v2 model with speaker "Brenda Stern")
rather than failing: `selectModel` is total and returns `allEntry` on
every unmapped language. -/
theorem c8_unmapped_language_uses_all_entry (l : List Char) (h : lookupLang l = none) :
    selectModel l = allEntry ∧ allEntry = (MULTILINGUAL_MODEL, some brendaStern) := by
  constructor
  · simp [selectModel, h]
  · rfl

/-- C8 witness: the unmapped language code "xx" selects the multilingual
fallback entry. -/
theorem c8_unmapped_language_uses_all_entry_witness :
    selectModel "xx".toList = allEntry ∧ allEntry = (MULTILINGUAL_MODEL, some brendaStern) :=
  c8_unmapped_language_uses_all_entry ("xx".toList) (by decide)

/-- C10: a constructor language argument that is not a LANGUAGE_MAPPING
key (None included) yields `wished_language = None`, and language
resolution then behaves exactly as in the auto case: the increment's own
(truthy) language tag is used when present, and "all" otherwise. -/
theorem c10_unmapped_constructor_language_is_auto (langArg : Option (List Char))
    (h : ∀ l, langArg = some l → isLangKey l = false) :
    wishedOf langArg = none ∧
    (∀ iuLang, resolveLanguage (wishedOf langArg) iuLang = resolveLanguage none iuLang) ∧
    (∀ l, l ≠ [] → resolveLanguage none (some l) = l) ∧
    resolveLanguage none none = allKey ∧
    resolveLanguage none (some []) = allKey := by
  have hw : wishedOf langArg = none := by
    cases langArg with
    | none => rfl
    | some l => simp [wishedOf, h l rfl]
  refine ⟨hw, ?_, ?_, rfl, rfl⟩
  · intro iuLang; rw [hw]
  · intro l hl
    simp [resolveLanguage, truthyOpt, List.isEmpty_iff, hl]

/-- C10 witness: the unmapped constructor argument "xx" gives
`wished_language = None` and auto per-increment resolution. -/
theorem c10_unmapped_constructor_language_is_auto_witness :
    wishedOf (some ("xx".toList)) = none ∧
    (∀ iuLang, resolveLanguage (wishedOf (some ("xx".toList))) iuLang =
      resolveLanguage none iuLang) ∧
    (∀ l, l ≠ [] → resolveLanguage none (some l) = l) ∧
    resolveLanguage none none = allKey ∧
    resolveLanguage none (some []) = allKey :=
  c10_unmapped_constructor_language_is_auto (some ("xx".toList))
    (by intro l hl; injection hl with h2; subst h2; decide)

/-- C9: constructing CoquiTTS with language=None returns early, leaving
every attribute unset, and both get_cache_path and synthesize on such an
instance raise AttributeError instead of returning a value. -/
theorem c9_language_none_leaves_instance_unusable (srOfModel : Option (List Char) → Nat)
    (m sp : Option (List Char)) (c : Bool) (d : List Char)
    (oracle : List Char → List Nat) (fs : FsState) (t : List Char) :
    coquiInit srOfModel m sp none c d =
      { modelName := none, speaker := none, language := none, caching := none,
        tmpDir := none, hasTTS := false, sampleRate := none } ∧
    getCachePath (coquiInit srOfModel m sp none c d) t = .error .attributeError ∧
    coquiSynthesize oracle (coquiInit srOfModel m sp none c d) fs t =
      .error .attributeError :=
  ⟨rfl, rfl, rfl⟩

/-- C6: with caching enabled, two synthesize calls with the same text and
model invoke the underlying synthesizer at most once in total, and the
second call returns exactly the bytes of the first. -/
theorem c6_cache_round_trip (oracle : List Char → List Nat) (m : List Char)
    (fs : FsState) (t : List Char) :
    (synthRun oracle m true ((synthRun oracle m true fs t).2) t).1 =
      (synthRun oracle m true fs t).1 ∧
    (synthRun oracle m true ((synthRun oracle m true fs t).2) t).2.synthCalls ≤
      fs.synthCalls + 1 := by
  cases h : fs.cache.find? (fun p => p.1 == cacheKey t m) with
  | some entry => simp [synthRun, h]
  | none => simp [synthRun, h, List.find?]

/-- C4: on a tick with an empty buffer the scheduler emits the all-zero
silence frame whose byte length satisfies
`length * frameDen = sample_rate * frameNum * samplewidth`
(i.e. length = sample_rate * frame_duration * sample_width_bytes, stated
over the rational frame duration); on a tick with a non-empty buffer it
removes and emits the front frame. -/
theorem c4_tick_silence_or_front (s : ModState) :
    (s.audioBuffer = [] →
      (tick s).1 = silenceFrame s ∧
      (∀ b ∈ (tick s).1, b = 0) ∧
      (s.frameDen ∣ s.sampleRate * s.frameNum →
        (tick s).1.length * s.frameDen = s.sampleRate * s.frameNum * s.samplewidth)) ∧
    (∀ f rest, s.audioBuffer = f :: rest →
      (tick s).1 = f ∧ (tick s).2.audioBuffer = rest) := by
  constructor
  · intro h
    refine ⟨by simp [tick, h], ?_, ?_⟩
    · intro b hb
      simp only [tick, h, silenceFrame] at hb
      exact List.eq_of_mem_replicate hb
    · intro hdvd
      simp only [tick, h, silenceFrame, List.length_replicate]
      rw [Nat.mul_assoc, Nat.div_mul_cancel hdvd]
      ring
  · intro f rest h
    simp [tick, h]

/-- A never-started module state with the default configuration
(sample_rate 22050, frame_duration 0.2, samplewidth 2), empty buffer. -/
def tickStateEmpty : ModState := initModState none

/-- The same state with one two-byte frame buffered. -/
def tickStateFull : ModState := { initModState none with audioBuffer := [[3, 4]] }

/-- C4 witness: on the default configuration the silence frame is
all-zero with 8820 bytes (8820 * 5 = 22050 * 1 * 2), and a buffered
frame is popped and emitted as-is. -/
theorem c4_tick_silence_or_front_witness :
    ((tick tickStateEmpty).1 = silenceFrame tickStateEmpty ∧
      (∀ b ∈ (tick tickStateEmpty).1, b = 0) ∧
      (tick tickStateEmpty).1.length * tickStateEmpty.frameDen =
        tickStateEmpty.sampleRate * tickStateEmpty.frameNum * tickStateEmpty.samplewidth) ∧
    ((tick tickStateFull).1 = [3, 4] ∧ (tick tickStateFull).2.audioBuffer = []) :=
  ⟨by
      obtain ⟨h1, h2, h3⟩ := (c4_tick_silence_or_front tickStateEmpty).1 rfl
      exact ⟨h1, h2, h3 (by decide)⟩,
    (c4_tick_silence_or_front tickStateFull).2 [3, 4] [] rfl⟩

/-- C7: once shutdown clears the thread-active flag, the scheduler loop
emits no further frames, however many tick opportunities follow; shutdown
on a module whose scheduler was never started (the flag is false from the
constructor) is a no-op, hence safe. -/
theorem c7_shutdown_stops_scheduler (n : Nat) (s : ModState) :
    runSched n (shutdown s) = [] ∧
    (s.ttsThreadActive = false → shutdown s = s) ∧
    (initModState none).ttsThreadActive = false := by
  refine ⟨?_, ?_, rfl⟩
  · cases n <;> simp [runSched, shutdown]
  · intro h; cases s; simp_all [shutdown]

/-- C7 witness: after shutdown of the default module no frame is emitted
in three tick opportunities, and shutdown of the never-started module is
a no-op. -/
theorem c7_shutdown_stops_scheduler_witness :
    runSched 3 (shutdown (initModState none)) = [] ∧
    shutdown (initModState none) = initModState none ∧
    (initModState none).ttsThreadActive = false :=
  ⟨(c7_shutdown_stops_scheduler 3 (initModState none)).1,
   (c7_shutdown_stops_scheduler 3 (initModState none)).2.1 rfl,
   (c7_shutdown_stops_scheduler 3 (initModState none)).2.2⟩

/-- C5: every frame a synthesis run appends to the buffer has exactly
`frame_bytes` bytes; their concatenation is the source waveform followed
only by the zero right-pad of the final chunk; and `frame_bytes`
satisfies `frameBytes * frameDen = sample_rate * frameNum * samplewidth`
(i.e. it equals sample_rate * frame_duration * sample_width_bytes, over
the rational frame duration). -/
theorem c5_synthesis_frames_fixed_size (s : ModState) (audio : List Nat)
    (h : 0 < frameBytes s) :
    (∀ c ∈ synthesizeFrames s audio, c.length = frameBytes s) ∧
    (synthesizeFrames s audio).flatten =
      audio ++ List.replicate ((frameBytes s - audio.length % frameBytes s) % frameBytes s) 0 ∧
    (s.frameDen ∣ s.sampleRate * s.frameNum →
      frameBytes s * s.frameDen = s.sampleRate * s.frameNum * s.samplewidth) := by
  refine ⟨chunkify_length _ _ h, chunkify_flatten _ _ h, ?_⟩
  intro hdvd
  simp only [frameBytes]
  rw [Nat.mul_right_comm, Nat.div_mul_cancel hdvd]

/-- A state with a small frame size (frameBytes = 2) for concrete
evaluation. -/
def c5State : ModState :=
  { initModState none with sampleRate := 10, frameNum := 1, frameDen := 5, samplewidth := 1 }

/-- C5 witness: with frameBytes = 2, the waveform [1, 2, 3] is cut into
frames of exactly 2 bytes whose concatenation is [1, 2, 3, 0]. -/
theorem c5_synthesis_frames_fixed_size_witness :
    (∀ c ∈ synthesizeFrames c5State [1, 2, 3], c.length = frameBytes c5State) ∧
    (synthesizeFrames c5State [1, 2, 3]).flatten =
      [1, 2, 3] ++ List.replicate
        ((frameBytes c5State - [1, 2, 3].length % frameBytes c5State) % frameBytes c5State) 0 ∧
    frameBytes c5State * c5State.frameDen =
      c5State.sampleRate * c5State.frameNum * c5State.samplewidth :=
  ⟨(c5_synthesis_frames_fixed_size c5State [1, 2, 3] (by decide)).1,
   (c5_synthesis_frames_fixed_size c5State [1, 2, 3] (by decide)).2.1,
   (c5_synthesis_frames_fixed_size c5State [1, 2, 3] (by decide)).2.2 (by decide)⟩

/-- Stepping lemma: an ADD of an uncommitted increment whose accumulated
text (old input plus the new fragment) has no terminal marker takes the
non-dispatch branch, only growing current_input. -/
theorem processOne_uncommitted_add (srOf : List Char → Nat) (s : ModState) (iu : TextIU)
    (h1 : iu.committed = false)
    (h2 : ((s.currentInput ++ [iu]).map (fun x => x.text)).any containsTerminal = false) :
    processOne srOf (s, false) iu .ADD =
      ({ s with language := resolveLanguage s.wishedLanguage iu.language,
                model := (selectModel (resolveLanguage s.wishedLanguage iu.language)).1,
                speaker := (selectModel (resolveLanguage s.wishedLanguage iu.language)).2,
                sampleRate := srOf (selectModel (resolveLanguage s.wishedLanguage iu.language)).1,
                currentInput := s.currentInput ++ [iu],
                latestInputIU := some iu }, false) := by
  have hct : containsTerminal
      (joinSpace ((s.currentInput ++ [iu]).map (fun x => x.text))) = false := by
    rw [containsTerminal_joinSpace]; exact h2
  simp only [List.map_append, List.map_cons, List.map_nil] at hct
  simp [processOne, currentText, h1, hct]

/-- Folding a sequence of uncommitted ADDs whose total accumulated text
has no terminal marker dispatches nothing, only appending the increments
to current_input and keeping the final flag false. -/
theorem adds_fold_no_dispatch (srOf : List Char → Nat) (ius : List TextIU) :
    ∀ s : ModState,
      (∀ iu ∈ ius, iu.committed = false) →
      ((s.currentInput ++ ius).map (fun x => x.text)).any containsTerminal = false →
      ((ius.map (fun iu => (iu, UpdType.ADD))).foldl
          (fun st u => processOne srOf st u.1 u.2) (s, false)).1.dispatches = s.dispatches ∧
      ((ius.map (fun iu => (iu, UpdType.ADD))).foldl
          (fun st u => processOne srOf st u.1 u.2) (s, false)).1.currentInput =
        s.currentInput ++ ius := by
  induction ius with
  | nil => intro s _ _; simp
  | cons iu rest ih =>
    intro s hc ht
    have hcom : iu.committed = false := hc iu (by simp)
    have h2 : ((s.currentInput ++ [iu]).map (fun x => x.text)).any containsTerminal = false := by
      simp only [List.map_append, List.any_append, List.map_cons, List.any_cons,
        Bool.or_eq_false_iff, List.any_nil] at ht ⊢
      exact ⟨ht.1, ht.2.1, rfl⟩
    simp only [List.map_cons, List.foldl_cons, processOne_uncommitted_add srOf s iu hcom h2]
    have hrec := ih ({ s with
        language := resolveLanguage s.wishedLanguage iu.language,
        model := (selectModel (resolveLanguage s.wishedLanguage iu.language)).1,
        speaker := (selectModel (resolveLanguage s.wishedLanguage iu.language)).2,
        sampleRate := srOf (selectModel (resolveLanguage s.wishedLanguage iu.language)).1,
        currentInput := s.currentInput ++ [iu],
        latestInputIU := some iu })
      (fun x hx => hc x (by simp [hx]))
      (by
        simp only [List.map_append, List.any_append, List.map_cons, List.any_cons,
          Bool.or_eq_false_iff, List.any_nil] at ht ⊢
        exact ⟨⟨ht.1, ht.2.1, rfl⟩, ht.2.2⟩)
    refine ⟨hrec.1, ?_⟩
    rw [hrec.2]
    simp

/-- C2: processing any sequence of uncommitted ADD increments whose
accumulated space-joined text contains none of the terminal characters
(and no COMMIT update, an increment carrying committed=True being a
commit) dispatches no synthesis (the ghost dispatch list stays empty, so
no thread is started) and leaves the pending input uncleared, holding
exactly the added increments. -/
theorem c2_no_dispatch_without_terminal (srOf : List Char → Nat)
    (lang : Option (List Char)) (ius : List TextIU)
    (hc : ∀ iu ∈ ius, iu.committed = false)
    (ht : containsTerminal (joinSpace (ius.map (fun x => x.text))) = false) :
    (processUpdate srOf (initModState lang)
        (ius.map (fun iu => (iu, UpdType.ADD)))).dispatches = [] ∧
    (processUpdate srOf (initModState lang)
        (ius.map (fun iu => (iu, UpdType.ADD)))).currentInput = ius := by
  cases ius with
  | nil => simp [processUpdate, initModState]
  | cons iu rest =>
    have hmain := adds_fold_no_dispatch srOf (iu :: rest) (initModState lang) hc
      (by
        rw [containsTerminal_joinSpace] at ht
        simpa [initModState] using ht)
    simpa [processUpdate, initModState] using hmain

/-- C2 witness: the single uncommitted ADD "Hello" (no terminal marker)
dispatches nothing and stays pending. -/
theorem c2_no_dispatch_without_terminal_witness :
    (processUpdate (fun _ => 22050) (initModState none)
        ([⟨0, "Hello".toList, none, false⟩].map (fun iu => (iu, UpdType.ADD)))).dispatches
      = [] ∧
    (processUpdate (fun _ => 22050) (initModState none)
        ([⟨0, "Hello".toList, none, false⟩].map (fun iu => (iu, UpdType.ADD)))).currentInput
      = [⟨0, "Hello".toList, none, false⟩] :=
  c2_no_dispatch_without_terminal (fun _ => 22050) none
    [⟨0, "Hello".toList, none, false⟩] (by decide) (by decide)

/-- The increment "Hello", uncommitted, no language tag. -/
def helloIU : TextIU := { uid := 0, text := "Hello".toList, language := none, committed := false }

/-- The increment "world.", uncommitted, no language tag. -/
def worldIU : TextIU := { uid := 1, text := "world.".toList, language := none, committed := false }

/-- A fixed model sample-rate oracle for concrete runs. -/
def constRateOf : List Char → Nat := fun _ => 22050

/-- C3: current_text is always the space-join of the pending fragments in
insertion order, and after the ADDs "Hello" then "world." exactly one
dispatch occurs, of the text "Hello world." (the pending input being
cleared by it). -/
theorem c3_current_text_join_and_single_dispatch :
    (∀ s : ModState, currentText s = joinSpace (s.currentInput.map (fun iu => iu.text))) ∧
    (processUpdate constRateOf
        (processUpdate constRateOf (initModState none) [(helloIU, .ADD)])
        [(worldIU, .ADD)]).dispatches = ["Hello world.".toList] ∧
    (processUpdate constRateOf
        (processUpdate constRateOf (initModState none) [(helloIU, .ADD)])
        [(worldIU, .ADD)]).latestText = "Hello world.".toList ∧
    (processUpdate constRateOf
        (processUpdate constRateOf (initModState none) [(helloIU, .ADD)])
        [(worldIU, .ADD)]).currentInput = [] :=
  ⟨fun _ => rfl, by decide, by decide, by decide⟩

/-- The C1 schedule: generation 1 is dispatched with one pending chunk;
generation 2 is dispatched (clearing the buffer) while the generation-1
thread has appended nothing yet; the generation-1 thread then performs
its append; the scheduler ticks once. -/
def c1Schedule : List SysStep :=
  [.dispatch [[7]], .dispatch [[9]], .synthStep 0, .tick]

/-- C1 counterexample run: right after the generation-2 dispatch nothing
has been emitted, yet the only frame the scheduler subsequently emits is
tagged generation 1 — a frame of the superseded generation reaches the
output stream after the dispatch instant, because `_synthesize` has no
generation check and the buffer clear in process_update cannot stop a
still-running synthesis thread from appending afterwards. -/
theorem c1_stale_generation_frame_emitted :
    (runSys initSys (c1Schedule.take 2)).out = [] ∧
    (runSys initSys (c1Schedule.take 2)).latestGen = 2 ∧
    (runSys initSys c1Schedule).out = [some (1, [7])] ∧
    (runSys initSys c1Schedule).latestGen = 2 := by
  refine ⟨rfl, rfl, ?_, rfl⟩
  rfl

end RMTTS
